import Mathlib

/-!
Shallow embedding of the hotel recommendation core
(RecommendationsScreen ranking/filter pipeline and area-search resolver,
SentimentPipeline score fusion, BookingPlatforms normalization).

Modelling conventions:
* JavaScript numbers are modelled as `ℚ`.
* The JS truthy-or `x || d` on an optional numeric field is `jsOr`:
  it yields the default both when the field is absent and when it is `0`
  (both are falsy in JS).
* JS `Array.prototype.sort(cmp)` (stable since ES2019) with a numeric
  comparator `cmp` is modelled as `List.mergeSort` with
  `le a b := (cmp a b ≤ 0)`.
* JS `Map` / plain-object records are association lists with last-write-wins
  lookup (`mapGet`); a JS `Set` built by insertion keeps first occurrences
  (`setDedup`).
-/

namespace HotelRec

/-- JS `x || d` for an optional numeric value: `undefined` and `0` are falsy. -/
def jsOr (x : Option ℚ) (d : ℚ) : ℚ :=
  match x with
  | some v => if v = 0 then d else v
  | none => d

/-- Raw numeric value as observed through JS `Number(...)`: either a finite
number or `NaN` (failed coercion). -/
inductive RawNum where
  | valid (q : ℚ)
  | nan
deriving DecidableEq, Repr

/-- A raw JS value stored under a platform key in `platform_ratings`, as
classified by the source's checks: a truthy object (with optional
`rating` / `reviews_count` fields, each seen through `Number(...)`), a plain
number, or anything else (`null`, string, `undefined`, ...). -/
inductive RawVal where
  | obj (rating : Option RawNum) (reviews : Option RawNum)
  | num (q : ℚ)
  | other
deriving DecidableEq, Repr

/-- JS `Number(x) || 0`: a missing field or `NaN` (and `0` itself) yield 0. -/
def numOrZero (x : Option RawNum) : ℚ :=
  match x with
  | some (.valid q) => q
  | _ => 0

/-- Embeds the platform-ratings formatting loop (RecommendationsScreen
lines 52-61 and identically 123-133): entries whose value is a truthy object
are rewritten with `rating`/`reviews_count` coerced via `Number(...) || 0`;
all other entries are dropped. -/
def formatPlatformRatings (m : List (String × RawVal)) : List (String × RawVal) :=
  m.filterMap (fun e =>
    match e.2 with
    | .obj r c => some (e.1, .obj (some (.valid (numOrZero r))) (some (.valid (numOrZero c))))
    | _ => none)

/-- Geographic coordinates `{lat, lng}`. -/
structure Coord where
  lat : ℚ
  lng : ℚ
deriving DecidableEq, Repr

/-- Hotel record: the fields of `RecommendedHotel` the core pipeline reads.
Optional numeric fields are `Option ℚ` (the source reads them through
`|| default`); `address` uses `""` for a missing address (the source reads it
through `|| ''`). -/
structure Hotel where
  name : String
  city : String
  address : String
  overall_score : Option ℚ
  price_range : Option ℚ
  hotel_star_rating : Option ℚ
  coordinates : Coord
  platform_ratings : List (String × RawVal)
deriving DecidableEq, Repr

/-- The three sort keys of the pipeline. -/
inductive SortKey where
  | ai_score
  | price
  | star
deriving DecidableEq, Repr

/-- The sort key value the comparator (lines 88-98) reads for a hotel:
`overall_score`, `price_range` or `hotel_star_rating`, each through `|| 0`. -/
def sortKeyVal (sortBy : SortKey) (h : Hotel) : ℚ :=
  match sortBy with
  | .ai_score => jsOr h.overall_score 0
  | .price => jsOr h.price_range 0
  | .star => jsOr h.hotel_star_rating 0

/-- The comparator of lines 88-98, as the relation `cmp a b ≤ 0`:
`ai_score` is `(b.overall_score || 0) - (a.overall_score || 0)` (descending),
`price` is `(a.price_range || 0) - (b.price_range || 0)` (ascending),
`star` is `(b.hotel_star_rating || 0) - (a.hotel_star_rating || 0)`
(descending). -/
def sortLe (sortBy : SortKey) (a b : Hotel) : Bool :=
  match sortBy with
  | .ai_score => jsOr b.overall_score 0 ≤ jsOr a.overall_score 0
  | .price => jsOr a.price_range 0 ≤ jsOr b.price_range 0
  | .star => jsOr b.hotel_star_rating 0 ≤ jsOr a.hotel_star_rating 0

/-- The stable sort step of the pipeline (line 88-99 before `.slice`). -/
def sortHotels (sortBy : SortKey) (l : List Hotel) : List Hotel :=
  l.mergeSort (fun a b => sortLe sortBy a b)

/-- Inclusive price bounds selected in the UI. -/
structure PriceRange where
  min : ℚ
  max : ℚ
deriving DecidableEq, Repr

/-- Embeds `hotelsWithParsedReviews` (lines 45-68): every hotel's
`platform_ratings` is rewritten by the formatting loop. -/
def hotelsWithParsedReviews (hotels : List Hotel) : List Hotel :=
  hotels.map (fun h => { h with platform_ratings := formatPlatformRatings h.platform_ratings })

/-- The city-filter stage (lines 76-85): case-insensitive exact match when a
truthy city other than the `'all'` sentinel is selected. -/
def cityFiltered (hotels : List Hotel) (selectedCity : String) : List Hotel :=
  if selectedCity ≠ "" ∧ selectedCity ≠ "all" then
    hotels.filter (fun h => h.city.toLower = selectedCity.toLower)
  else hotels

/-- The sort-and-truncate stage (lines 87-99): stable sort by the selected
key, then `.slice(0, 5)`. -/
def topFiveSorted (hotels : List Hotel) (sortBy : SortKey) : List Hotel :=
  (sortHotels sortBy hotels).take 5

/-- The price-range filter stage (lines 101-111): keep hotels whose
`price_range || 2500` lies in the selected inclusive bounds. -/
def priceFiltered (hotels : List Hotel) (selectedPriceRange : Option PriceRange) :
    List Hotel :=
  match selectedPriceRange with
  | some pr =>
      hotels.filter (fun (h : Hotel) =>
        decide (pr.min ≤ jsOr h.price_range 2500 ∧ jsOr h.price_range 2500 ≤ pr.max))
  | none => hotels

/-- Embeds the `filteredHotels` memo (lines 71-145): city filter (when a
specific city other than the `"all"` sentinel is selected), stable sort by
the selected key, truncation to the top 5, then the price-range filter with
`price_range || 2500`, and a final platform-ratings formatting pass
(lines 113-141). -/
def filteredHotels (hotels : List Hotel) (selectedCity : String) (sortBy : SortKey)
    (selectedPriceRange : Option PriceRange) : List Hotel :=
  (priceFiltered
      (topFiveSorted (cityFiltered (hotelsWithParsedReviews hotels) selectedCity) sortBy)
      selectedPriceRange).map (fun (h : Hotel) =>
    { h with platform_ratings := formatPlatformRatings h.platform_ratings })

/-- Last-write-wins lookup in an association list, matching JS `Map.get`
after a sequence of `Map.set` calls (later `set`s overwrite earlier ones)
and JS record indexing after assignments. -/
def mapGet {β : Type} : List (String × β) → String → Option β
  | [], _ => none
  | e :: rest, q =>
    match mapGet rest q with
    | some v => some v
    | none => if e.1 = q then some e.2 else none

/-- First-occurrence deduplication, matching `Array.from(new Set(xs))`
(JS `Set` iteration order is insertion order). -/
def setDedupAux (seen : List String) : List String → List String
  | [] => []
  | a :: l => if a ∈ seen then setDedupAux seen l else a :: setDedupAux (a :: seen) l

/-- JS `Array.from(new Set(xs))`. -/
def setDedup (l : List String) : List String :=
  setDedupAux [] l

/-- Composite key `` `${h.name}__${h.city}` `` used by the fuzzy branch
(lines 193). -/
def compositeKey (h : Hotel) : String :=
  h.name ++ "__" ++ h.city

/-- Composite key `` `${h.name}-${h.city}` `` used by the distance branch
(line 239). -/
def distKey (h : Hotel) : String :=
  h.name ++ "-" ++ h.city

/-- The address pool built at lines 186-199: for each hotel, its `address`
and `city` strings, empty strings removed by `filter(Boolean)`. -/
def addressPool (hotels : List Hotel) : List String :=
  hotels.flatMap (fun h => ([h.address, h.city].filter (fun s => s ≠ "")))

/-- The `addressToHotelKey` map of lines 187-198: each pooled string mapped
to the owning hotel's composite key (later hotels overwrite earlier ones on
duplicate address text, per JS `Map.set`). -/
def addressToHotelKey (hotels : List Hotel) : List (String × String) :=
  hotels.flatMap (fun h =>
    ([h.address, h.city].filter (fun s => s ≠ "")).map (fun c => (c, compositeKey h)))

/-- The `keyToHotel` map of lines 188-194. -/
def keyToHotel (hotels : List Hotel) : List (String × Hotel) :=
  hotels.map (fun h => (compositeKey h, h))

/-- The geocode lookup text of line 224:
`` `${areaQuery}, ${selectedCity}` `` when a specific city (truthy and not
the `'all'` sentinel) is selected, else the raw query. -/
def lookupText (areaQuery selectedCity : String) : String :=
  if selectedCity ≠ "" ∧ selectedCity ≠ "all" then
    areaQuery ++ ", " ++ selectedCity
  else areaQuery

/-- Drop leading whitespace characters. -/
def trimLeftChars : List Char → List Char
  | [] => []
  | c :: cs => if c.isWhitespace then trimLeftChars cs else c :: cs

/-- JS `String.prototype.trim()`: strip whitespace from both ends. -/
def jsTrim (s : String) : String :=
  ⟨(trimLeftChars ((trimLeftChars s.data).reverse)).reverse⟩

/-- Terminal outcome of one run of the area-search effect (lines 171-263). -/
inductive SearchOutcome where
  | cleared
  | matched (hotels : List Hotel)
  | noMatchFallback (hotels : List Hotel) (msg : String)
  | distanceRanked (center : Coord) (distances : List (String × ℚ)) (hotels : List Hotel)
  | searchFailed (hotels : List Hotel) (msg : String)
deriving DecidableEq, Repr

/-- Embeds the pure content of the area-search effect (lines 171-263).
The imported external collaborators are parameters: `fuzzy` is
`getCloseMatches` (called with max 10 results and minimum similarity 0.6),
`geocode` is `geocodeNominatim` (`.error` models a thrown network failure,
handled by the `catch` of lines 254-260), `dist` is `haversineDistance`.
`hotels` is the current `filteredHotels` candidate set. -/
def resolveArea (fuzzy : String → List String → Nat → ℚ → List String)
    (geocode : String → Except Unit (Option Coord))
    (dist : Coord → Coord → ℚ)
    (hotels : List Hotel) (areaQuery selectedCity : String) : SearchOutcome :=
  if jsTrim areaQuery = "" then .cleared
  else
    let found := fuzzy areaQuery (addressPool hotels) 10 (6/10)
    if found ≠ [] then
      let uniqKeys := setDedup (found.filterMap (mapGet (addressToHotelKey hotels)))
      let matchedHotels := (uniqKeys.filterMap (mapGet (keyToHotel hotels))).take 5
      .matched matchedHotels
    else
      match geocode (lookupText areaQuery selectedCity) with
      | .error _ => .searchFailed (hotels.take 5) "Search failed; showing defaults."
      | .ok none => .noMatchFallback (hotels.take 5) "No exact match found; showing top results."
      | .ok (some center) =>
          let distances := hotels.map (fun h => (distKey h, dist center h.coordinates))
          let withDist :=
            ((hotels.map (fun h => (h, dist center h.coordinates))).mergeSort
              (fun a b => decide (a.2 ≤ b.2))).take 5
          .distanceRanked center distances (withDist.map (fun x => x.1))

/-- The React state written by the area-search effect. -/
structure ResolutionState where
  searching : Bool
  searchError : Option String
  geoCenter : Option Coord
  distanceByKey : List (String × ℚ)
  areaFiltered : Option (List Hotel)
deriving DecidableEq, Repr

/-- Embeds the commit points of the area-search effect (lines 216-219,
226-232, 248-253 and 255-259): every branch that commits a resolution result
to state is guarded by `if (!cancel)`, where `cancel` is the flag captured at
effect start and set by the cleanup when a newer query supersedes the run.
The blank-query reset (lines 177-180) runs in the synchronous prefix and is
not a result commit. -/
def commitOutcome (cancel : Bool) (st : ResolutionState) (o : SearchOutcome) :
    ResolutionState :=
  match o with
  | .cleared => { st with areaFiltered := none }
  | .matched hs =>
      if cancel then st else { st with areaFiltered := some hs, searching := false }
  | .noMatchFallback hs msg =>
      if cancel then st
      else { st with areaFiltered := some hs, searchError := some msg, searching := false }
  | .distanceRanked c ds hs =>
      if cancel then st
      else { st with geoCenter := some c, distanceByKey := ds,
                     areaFiltered := some hs, searching := false }
  | .searchFailed hs msg =>
      if cancel then st
      else { st with areaFiltered := some hs, searchError := some msg, searching := false }

/-- Sentiment classification labels. -/
inductive Label where
  | POSITIVE
  | NEGATIVE
deriving DecidableEq, Repr

/-- The score bundle returned by `SentimentPipeline.analyzeDocument`. -/
structure ScoreBundle where
  sentimentScore : ℚ
  normalizedRating : ℚ
  combinedScore : ℚ
deriving DecidableEq, Repr

/-- The fixed classifier substituted when the sentiment model fails to load
(useAI.ts lines 76-81): every call returns `{label: POSITIVE, score: 0.85}`. -/
def fallbackClassifier : String → Label × ℚ :=
  fun _ => (.POSITIVE, 17/20)

/-- Embeds `SentimentPipeline.getInstance` (useAI.ts lines 68-84): the loaded
model when loading succeeds, else the fixed fallback classifier. -/
def getInstance (load : Except Unit (String → Label × ℚ)) : String → Label × ℚ :=
  match load with
  | .ok p => p
  | .error _ => fallbackClassifier

/-- `normalizedRating` as computed at useAI.ts lines 105 and 116:
`hotel.averageScore ? Math.min(1, hotel.averageScore / 5) : 0.5` — note the
truthiness test, which sends an average score of `0` to the `0.5` default. -/
def normalizedRatingOf (averageScore : Option ℚ) : ℚ :=
  match averageScore with
  | some v => if v = 0 then 1/2 else min 1 (v / 5)
  | none => 1/2

/-- Embeds `SentimentPipeline.analyzeDocument` (useAI.ts lines 86-123).
`classify` is the pipeline call on the (truncated to 512 chars) document
text; `.error` models a throw, handled by the `catch` of lines 113-122 with
the fixed fallback sentiment `0.7`. The function is total: no exception
escapes. -/
def analyzeDocument (classify : String → Except Unit (Label × ℚ))
    (documentText : String) (averageScore : Option ℚ) : ScoreBundle :=
  match classify (documentText.take 512) with
  | .ok res =>
      let sentimentScore := if res.1 = .POSITIVE then res.2 else 1 - res.2
      let normalizedRating := normalizedRatingOf averageScore
      ⟨sentimentScore, normalizedRating, (sentimentScore + normalizedRating) / 2⟩
  | .error _ =>
      let fallbackScore : ℚ := 7/10
      let normalizedRating := normalizedRatingOf averageScore
      ⟨fallbackScore, normalizedRating, (fallbackScore + normalizedRating) / 2⟩

/-- One displayed row produced by `processPlatforms` (BookingPlatforms.tsx):
`{platform, rating, reviews_count, url}`. -/
structure PlatformEntry where
  platform : String
  rating : ℚ
  reviews_count : ℚ
  url : String
deriving DecidableEq, Repr

/-- The value stored under a platform key in the `combined` record of
`processPlatforms`. -/
structure CombinedVal where
  rating : ℚ
  reviews_count : ℚ
  url : String
deriving DecidableEq, Repr

/-- JS record assignment `m[k] = v`: overwrite in place when the key exists
(keeping its position in enumeration order), else append. -/
def recSet {β : Type} (m : List (String × β)) (k : String) (v : β) : List (String × β) :=
  if m.any (fun e => e.1 = k) then
    m.map (fun e => if e.1 = k then (k, v) else e)
  else m ++ [(k, v)]

/-- The reviews loop of `processPlatforms` (BookingPlatforms.tsx lines
12-33): truthy objects are coerced entry-wise with `Number(...) || 0`; truthy
plain numbers use the legacy format `{rating, reviews_count: 0}`; everything
else is skipped. -/
def processReviews (reviews : List (String × RawVal)) : List (String × CombinedVal) :=
  reviews.foldl (fun acc e =>
    match e.2 with
    | .obj r c => recSet acc e.1.toLower ⟨numOrZero r, numOrZero c, ""⟩
    | .num q => if q ≠ 0 then recSet acc e.1.toLower ⟨q, 0, ""⟩ else acc
    | .other => acc) []

/-- The booking-links loop of `processPlatforms` (BookingPlatforms.tsx lines
36-52): a truthy extracted url updates the url of an existing entry or
inserts a `{url, rating: 0, reviews_count: 0}` entry. -/
def addBookingLinks (acc : List (String × CombinedVal))
    (bookingLinks : List (String × Option String)) : List (String × CombinedVal) :=
  bookingLinks.foldl (fun acc e =>
    match e.2 with
    | some url =>
        if url ≠ "" then
          match mapGet acc e.1.toLower with
          | some cv => recSet acc e.1.toLower { cv with url := url }
          | none => recSet acc e.1.toLower ⟨0, 0, url⟩
        else acc
    | none => acc) acc

/-- Fixed display order of BookingPlatforms.tsx line 55. -/
def platformOrder : List String :=
  ["booking.com", "google", "makemytrip", "tripadvisor"]

/-- Embeds `processPlatforms` (BookingPlatforms.tsx lines 5-66): merge the
reviews record with the booking links, keep only known platforms and sort
them by the fixed display order. -/
def processPlatforms (reviews : List (String × RawVal))
    (bookingLinks : List (String × Option String)) : List PlatformEntry :=
  let combined := addBookingLinks (processReviews reviews) bookingLinks
  ((combined.map (fun e => PlatformEntry.mk e.1 e.2.rating e.2.reviews_count e.2.url)).filter
      (fun item => platformOrder.contains item.platform.toLower)).mergeSort
    (fun a b =>
      decide (platformOrder.indexOf a.platform.toLower ≤ platformOrder.indexOf b.platform.toLower))

/-- A hotel whose `price_range` is present but `0` (a falsy JS number);
the source's catalog adapters produce such hotels via `priceRange || 0`. -/
def zeroPriceHotel : Hotel :=
  { name := "Hotel Zero", city := "Delhi", address := "",
    overall_score := some 1, price_range := some 0, hotel_star_rating := none,
    coordinates := ⟨0, 0⟩, platform_ratings := [] }

/-- A concrete classifier that always succeeds with `{POSITIVE, 0.5}`. -/
def constClassifier : String → Except Unit (Label × ℚ) :=
  fun _ => .ok (.POSITIVE, 1/2)

/-- A concrete hotel whose address contains the landmark of the spec's
scenario. -/
def connaughtHotel : Hotel :=
  { name := "The Imperial", city := "New Delhi",
    address := "Connaught Place, New Delhi",
    overall_score := some 90, price_range := some 8000, hotel_star_rating := some 5,
    coordinates := ⟨28, 77⟩, platform_ratings := [] }

/-- A concrete fuzzy matcher that returns (up to) the first `maxResults`
strings of the pool. -/
def poolFuzzy : String → List String → Nat → ℚ → List String :=
  fun _ pool n _ => pool.take n

/-- A concrete fuzzy matcher that never matches. -/
def emptyFuzzy : String → List String → Nat → ℚ → List String :=
  fun _ _ _ _ => []

/-- A concrete distance function (squared Euclidean in coordinate space),
standing in for the external haversine implementation. -/
def sqDist : Coord → Coord → ℚ :=
  fun a b => (a.lat - b.lat) * (a.lat - b.lat) + (a.lng - b.lng) * (a.lng - b.lng)

/-- The geocoded center of the spec's scenario, `{lat: 28.6, lng: 77.2}`. -/
def centerDelhi : Coord :=
  ⟨286/10, 772/10⟩

/-- Justification of a combined platform value with respect to the raw
reviews record: its numbers were produced by the coercion of some raw entry
(object entry-wise via `Number(...) || 0`, or legacy truthy number), or it
is the all-zero value inserted for link-only platforms. No raw value flows
through unvalidated. -/
def valJustified (reviews : List (String × RawVal)) (p : String) (v : CombinedVal) : Prop :=
  (∃ pk d, (pk, d) ∈ reviews ∧ pk.toLower = p ∧
    ((∃ r c, d = .obj r c ∧ v.rating = numOrZero r ∧ v.reviews_count = numOrZero c) ∨
     (∃ q, d = .num q ∧ q ≠ 0 ∧ v.rating = q ∧ v.reviews_count = 0)))
  ∨ (v.rating = 0 ∧ v.reviews_count = 0)

/-- Justification of a displayed platform row (see `valJustified`). -/
def entryJustified (reviews : List (String × RawVal)) (e : PlatformEntry) : Prop :=
  valJustified reviews e.platform ⟨e.rating, e.reviews_count, e.url⟩

theorem sortLe_trans (sortBy : SortKey) (a b c : Hotel) :
    sortLe sortBy a b → sortLe sortBy b c → sortLe sortBy a c := by
  cases sortBy <;> simp only [sortLe, decide_eq_true_eq] <;> intro h1 h2 <;>
    first
      | exact le_trans h2 h1
      | exact le_trans h1 h2

theorem sortLe_total (sortBy : SortKey) (a b : Hotel) :
    sortLe sortBy a b || sortLe sortBy b a := by
  cases sortBy <;> simp only [sortLe, Bool.or_eq_true, decide_eq_true_eq] <;>
    exact le_total _ _

/-- A stable sort leaves the relative order of elements that are mutually
`le` unchanged: filtering by a class on which `le` always holds commutes
with `mergeSort`. -/
theorem mergeSort_filter_eq {α : Type} {le : α → α → Bool}
    (trans : ∀ a b c : α, le a b → le b c → le a c)
    (total : ∀ a b : α, le a b || le b a)
    (l : List α) (p : α → Bool) (hp : ∀ a b, p a → p b → le a b) :
    (l.mergeSort le).filter p = l.filter p := by
  have hA : (l.filter p).Pairwise (fun a b => le a b = true) :=
    List.pairwise_of_forall_mem_list (fun a ha b hb =>
      hp a b (List.of_mem_filter ha) (List.of_mem_filter hb))
  have hsub : (l.filter p).Sublist (l.mergeSort le) :=
    List.sublist_mergeSort trans total hA (List.filter_sublist l)
  have hself : (l.filter p).filter p = l.filter p :=
    List.filter_eq_self.mpr (fun a ha => List.of_mem_filter ha)
  have h3 : (l.filter p).Sublist ((l.mergeSort le).filter p) := by
    have := hsub.filter p
    rwa [hself] at this
  have h4 : ((l.mergeSort le).filter p).Perm (l.filter p) :=
    (List.mergeSort_perm l le).filter p
  exact (h3.eq_of_length h4.length_eq.symm).symm

/-- C2: in the ranking pipeline, `ai_score` sorts by `overall_score`
descending (missing treated as 0), `price` by `price_range` ascending
(missing treated as 0), `star` by `hotel_star_rating` descending (missing
treated as 0), and in every case hotels with equal sort keys retain their
relative input order (stable sort): filtering the sorted list by any fixed
key value returns exactly the input filtered by that key value. -/
theorem sortHotels_spec (l : List Hotel) :
    ((sortHotels .ai_score l).Pairwise
      (fun a b => jsOr b.overall_score 0 ≤ jsOr a.overall_score 0))
  ∧ ((sortHotels .price l).Pairwise
      (fun a b => jsOr a.price_range 0 ≤ jsOr b.price_range 0))
  ∧ ((sortHotels .star l).Pairwise
      (fun a b => jsOr b.hotel_star_rating 0 ≤ jsOr a.hotel_star_rating 0))
  ∧ (∀ (sortBy : SortKey) (k : ℚ),
      (sortHotels sortBy l).filter (fun h => sortKeyVal sortBy h = k)
        = l.filter (fun h => sortKeyVal sortBy h = k)) := by
  refine ⟨?_, ?_, ?_, ?_⟩
  · have := @List.sorted_mergeSort Hotel (fun a b => sortLe .ai_score a b)
      (sortLe_trans .ai_score) (sortLe_total .ai_score) l
    exact this.imp (fun h => by simpa [sortLe] using h)
  · have := @List.sorted_mergeSort Hotel (fun a b => sortLe .price a b)
      (sortLe_trans .price) (sortLe_total .price) l
    exact this.imp (fun h => by simpa [sortLe] using h)
  · have := @List.sorted_mergeSort Hotel (fun a b => sortLe .star a b)
      (sortLe_trans .star) (sortLe_total .star) l
    exact this.imp (fun h => by simpa [sortLe] using h)
  · intro sortBy k
    apply mergeSort_filter_eq (sortLe_trans sortBy) (sortLe_total sortBy)
    intro a b ha hb
    have ha' : sortKeyVal sortBy a = k := by simpa using ha
    have hb' : sortKeyVal sortBy b = k := by simpa using hb
    cases sortBy <;>
      simp_all [sortLe, sortKeyVal]

theorem formatPlatformRatings_idem (m : List (String × RawVal)) :
    formatPlatformRatings (formatPlatformRatings m) = formatPlatformRatings m := by
  induction m with
  | nil => rfl
  | cons e rest ih =>
    obtain ⟨k, v⟩ := e
    cases v <;> simp [formatPlatformRatings, List.filterMap_cons, numOrZero] at ih ⊢ <;>
      simpa [formatPlatformRatings] using ih

theorem mem_of_mem_topFiveSorted {h : Hotel} {l : List Hotel} {sortBy : SortKey}
    (hm : h ∈ topFiveSorted l sortBy) : h ∈ l :=
  List.mem_mergeSort.mp ((List.take_sublist 5 _).mem hm)

theorem mem_of_mem_cityFiltered {h : Hotel} {l : List Hotel} {c : String}
    (hm : h ∈ cityFiltered l c) : h ∈ l := by
  unfold cityFiltered at hm
  split at hm
  · exact List.mem_of_mem_filter hm
  · exact hm

theorem formatted_of_mem_hotelsWithParsedReviews {h : Hotel} {l : List Hotel}
    (hm : h ∈ hotelsWithParsedReviews l) :
    formatPlatformRatings h.platform_ratings = h.platform_ratings := by
  unfold hotelsWithParsedReviews at hm
  obtain ⟨g, _, rfl⟩ := List.mem_map.mp hm
  simp [formatPlatformRatings_idem]

/-- C1 (amended): with a selected price range, the pipeline output has
length at most 5; every hotel in it has effective price
`price_range || 2500` (the default also applies to a falsy price of 0)
within the inclusive bounds; and every output hotel already appears in the
sorted-and-truncated top 5 computed before the price filter, so a hotel
ranked 6th or later is never in the output. -/
theorem filteredHotels_spec (hotels : List Hotel) (selectedCity : String)
    (sortBy : SortKey) (pr : PriceRange) :
    (filteredHotels hotels selectedCity sortBy (some pr)).length ≤ 5
  ∧ (∀ h ∈ filteredHotels hotels selectedCity sortBy (some pr),
      pr.min ≤ jsOr h.price_range 2500 ∧ jsOr h.price_range 2500 ≤ pr.max)
  ∧ (∀ h ∈ filteredHotels hotels selectedCity sortBy (some pr),
      h ∈ topFiveSorted (cityFiltered (hotelsWithParsedReviews hotels) selectedCity) sortBy) := by
  refine ⟨?_, ?_, ?_⟩
  · unfold filteredHotels priceFiltered topFiveSorted
    calc _ = _ := List.length_map _ _
      _ ≤ _ := List.length_filter_le _ _
      _ ≤ 5 := List.length_take_le _ _
  · intro h hm
    unfold filteredHotels at hm
    obtain ⟨g, hg, rfl⟩ := List.mem_map.mp hm
    have hp := List.of_mem_filter (p :=
      fun (h : Hotel) =>
        decide (pr.min ≤ jsOr h.price_range 2500 ∧ jsOr h.price_range 2500 ≤ pr.max)) hg
    simp only [decide_eq_true_eq] at hp
    simpa using hp
  · intro h hm
    unfold filteredHotels at hm
    obtain ⟨g, hg, rfl⟩ := List.mem_map.mp hm
    have hg5 : g ∈ topFiveSorted
        (cityFiltered (hotelsWithParsedReviews hotels) selectedCity) sortBy := by
      unfold priceFiltered at hg
      exact List.mem_of_mem_filter hg
    have hgfmt : formatPlatformRatings g.platform_ratings = g.platform_ratings :=
      formatted_of_mem_hotelsWithParsedReviews
        (mem_of_mem_cityFiltered (mem_of_mem_topFiveSorted hg5))
    have : ({ g with platform_ratings := formatPlatformRatings g.platform_ratings } : Hotel)
        = g := by
      cases g
      simp_all
    rwa [this]

/-- C1 (counterexample): a hotel with present `price_range = 0` passes the
price filter for the range [2000, 3000] (the code substitutes 2500 for any
falsy price, not only for an absent one), so the output contains a hotel
whose price, defaulting to 2500 only when absent, is outside the selected
bounds. -/
theorem filteredHotels_zero_price_counterexample :
    zeroPriceHotel ∈
      filteredHotels [zeroPriceHotel] "all" .ai_score (some ⟨2000, 3000⟩)
  ∧ ¬ ((2000 : ℚ) ≤ zeroPriceHotel.price_range.getD 2500
        ∧ zeroPriceHotel.price_range.getD 2500 ≤ 3000) := by
  constructor
  · unfold filteredHotels priceFiltered topFiveSorted sortHotels cityFiltered
      hotelsWithParsedReviews
    simp [zeroPriceHotel, formatPlatformRatings, jsOr]
    exact ⟨_, ⟨rfl, by norm_num, by norm_num⟩, by simp⟩
  · decide

/-- C1 (witness): the amended pipeline bounds evaluated on a concrete
one-hotel catalog. -/
theorem filteredHotels_spec_witness :
    (filteredHotels [zeroPriceHotel] "all" .ai_score (some ⟨2000, 3000⟩)).length ≤ 5
  ∧ (∀ h ∈ filteredHotels [zeroPriceHotel] "all" .ai_score (some ⟨2000, 3000⟩),
      (⟨2000, 3000⟩ : PriceRange).min ≤ jsOr h.price_range 2500
        ∧ jsOr h.price_range 2500 ≤ (⟨2000, 3000⟩ : PriceRange).max)
  ∧ (∀ h ∈ filteredHotels [zeroPriceHotel] "all" .ai_score (some ⟨2000, 3000⟩),
      h ∈ topFiveSorted (cityFiltered (hotelsWithParsedReviews [zeroPriceHotel]) "all")
        .ai_score) :=
  filteredHotels_spec [zeroPriceHotel] "all" .ai_score ⟨2000, 3000⟩

/-- C3 (counterexample): for the present average rating `0`, the code's
truthiness test yields the `0.5` default, not `clamp(0/5, 0, 1) = 0` as the
claim states. -/
theorem analyzeDocument_zero_rating_counterexample :
    (analyzeDocument constClassifier "" (some 0)).normalizedRating = 1/2
  ∧ (analyzeDocument constClassifier "" (some 0)).normalizedRating
      ≠ max 0 (min 1 ((0 : ℚ) / 5)) := by
  have hval : (analyzeDocument constClassifier "" (some 0)).normalizedRating = 1/2 := rfl
  refine ⟨hval, ?_⟩
  rw [hval]
  norm_num

/-- C3 (amended): for a classifier score in [0,1], score fusion returns
`normalizedRating = min(1, r/5)` when the average rating `r` is present and
nonzero, and exactly `0.5` when `r` is undefined or `0` (JS falsy);
`combinedScore = (sentimentScore + normalizedRating)/2`; and the combined
score lies in [0,1] whenever any present rating is nonnegative. -/
theorem analyzeDocument_fuse_spec (label : Label) (q : ℚ) (text : String)
    (r : Option ℚ) (h0 : 0 ≤ q) (h1 : q ≤ 1) :
    (r = none ∨ r = some 0 →
      (analyzeDocument (fun _ => .ok (label, q)) text r).normalizedRating = 1/2)
  ∧ (∀ v, r = some v → v ≠ 0 →
      (analyzeDocument (fun _ => .ok (label, q)) text r).normalizedRating = min 1 (v / 5))
  ∧ (analyzeDocument (fun _ => .ok (label, q)) text r).combinedScore
      = ((analyzeDocument (fun _ => .ok (label, q)) text r).sentimentScore
          + (analyzeDocument (fun _ => .ok (label, q)) text r).normalizedRating) / 2
  ∧ ((∀ v, r = some v → 0 ≤ v) →
      0 ≤ (analyzeDocument (fun _ => .ok (label, q)) text r).combinedScore
        ∧ (analyzeDocument (fun _ => .ok (label, q)) text r).combinedScore ≤ 1) := by
  have hs0 : 0 ≤ (if label = .POSITIVE then q else 1 - q) := by
    split <;> linarith
  have hs1 : (if label = .POSITIVE then q else 1 - q) ≤ 1 := by
    split <;> linarith
  refine ⟨?_, ?_, ?_, ?_⟩
  · rintro (rfl | rfl) <;> simp [analyzeDocument, normalizedRatingOf]
  · rintro v rfl hv
    simp [analyzeDocument, normalizedRatingOf, hv]
  · simp [analyzeDocument]
  · intro hr
    have hn0 : 0 ≤ normalizedRatingOf r := by
      cases r with
      | none => norm_num [normalizedRatingOf]
      | some v =>
        have hv := hr v rfl
        by_cases h : v = 0
        · norm_num [normalizedRatingOf, h]
        · simp only [normalizedRatingOf, h, if_false]
          have h5 : (0 : ℚ) ≤ v / 5 := by positivity
          exact le_min (by norm_num) h5
    have hn1 : normalizedRatingOf r ≤ 1 := by
      cases r with
      | none => norm_num [normalizedRatingOf]
      | some v =>
        by_cases h : v = 0
        · norm_num [normalizedRatingOf, h]
        · simp only [normalizedRatingOf, h, if_false]
          exact min_le_left _ _
    refine ⟨?_, ?_⟩ <;> simp only [analyzeDocument] <;> linarith

/-- C7: if the sentiment call throws, no exception escapes `analyzeDocument`
(the embedding is a total function): the bundle is built from the fixed
fallback sentiment 0.7 with `combinedScore = (0.7 + normalizedRating)/2`;
and if model loading fails, `getInstance` substitutes the fixed classifier
returning `{label: POSITIVE, score: 0.85}` for every call. -/
theorem sentiment_fallback_spec (text : String) (r : Option ℚ)
    (classify : String → Except Unit (Label × ℚ)) (e : Unit)
    (hthrow : classify (text.take 512) = .error e) :
    analyzeDocument classify text r =
      ⟨7/10, normalizedRatingOf r, (7/10 + normalizedRatingOf r) / 2⟩
  ∧ getInstance (.error ()) = fallbackClassifier
  ∧ (∀ t, fallbackClassifier t = (.POSITIVE, 17/20)) := by
  refine ⟨?_, rfl, fun t => rfl⟩
  simp [analyzeDocument, hthrow]

/-- C10: for a classifier result with score in [0,1], the derived
`sentimentScore` is the score itself on a POSITIVE label and `1 - score`
otherwise, and in both cases lies in [0,1]. -/
theorem sentiment_label_mapping (label : Label) (q : ℚ) (text : String)
    (r : Option ℚ) (h0 : 0 ≤ q) (h1 : q ≤ 1) :
    0 ≤ (analyzeDocument (fun _ => .ok (label, q)) text r).sentimentScore
  ∧ (analyzeDocument (fun _ => .ok (label, q)) text r).sentimentScore ≤ 1
  ∧ (label = .POSITIVE →
      (analyzeDocument (fun _ => .ok (label, q)) text r).sentimentScore = q)
  ∧ (label ≠ .POSITIVE →
      (analyzeDocument (fun _ => .ok (label, q)) text r).sentimentScore = 1 - q) := by
  cases label <;> simp [analyzeDocument] <;> constructor <;> linarith

/-- C3 (witness): the amended fusion contract evaluated at a POSITIVE
classifier score of 0 and a present average rating of 3. -/
theorem analyzeDocument_fuse_spec_witness :
    (0 : ℚ) ≤ 0 ∧ (0 : ℚ) ≤ 1
  ∧ ((some (3 : ℚ) = none ∨ some (3 : ℚ) = some 0 →
        (analyzeDocument (fun _ => .ok (.POSITIVE, 0)) "great stay" (some 3)).normalizedRating
          = 1/2)
    ∧ (∀ v, some (3 : ℚ) = some v → v ≠ 0 →
        (analyzeDocument (fun _ => .ok (.POSITIVE, 0)) "great stay" (some 3)).normalizedRating
          = min 1 (v / 5))
    ∧ (analyzeDocument (fun _ => .ok (.POSITIVE, 0)) "great stay" (some 3)).combinedScore
        = ((analyzeDocument (fun _ => .ok (.POSITIVE, 0)) "great stay" (some 3)).sentimentScore
            + (analyzeDocument (fun _ => .ok (.POSITIVE, 0)) "great stay"
                (some 3)).normalizedRating) / 2
    ∧ ((∀ v, some (3 : ℚ) = some v → 0 ≤ v) →
        0 ≤ (analyzeDocument (fun _ => .ok (.POSITIVE, 0)) "great stay" (some 3)).combinedScore
          ∧ (analyzeDocument (fun _ => .ok (.POSITIVE, 0)) "great stay"
              (some 3)).combinedScore ≤ 1)) :=
  ⟨by decide, by decide,
    analyzeDocument_fuse_spec .POSITIVE 0 "great stay" (some 3) (by decide) (by decide)⟩

/-- C7 (witness): the fallback contract evaluated on a classifier that
throws. -/
theorem sentiment_fallback_spec_witness :
    (fun _ : String => (.error () : Except Unit (Label × ℚ))) ("x".take 512) = .error ()
  ∧ (analyzeDocument (fun _ => .error ()) "x" none
        = ⟨7/10, normalizedRatingOf none, (7/10 + normalizedRatingOf none) / 2⟩
    ∧ getInstance (.error ()) = fallbackClassifier
    ∧ (∀ t, fallbackClassifier t = (.POSITIVE, 17/20))) :=
  ⟨rfl, sentiment_fallback_spec "x" none (fun _ => .error ()) () rfl⟩

/-- C10 (witness): the label mapping evaluated at a NEGATIVE classifier
result with score 0. -/
theorem sentiment_label_mapping_witness :
    (0 : ℚ) ≤ 0 ∧ (0 : ℚ) ≤ 1
  ∧ (0 ≤ (analyzeDocument (fun _ => .ok (.NEGATIVE, 0)) "t" none).sentimentScore
    ∧ (analyzeDocument (fun _ => .ok (.NEGATIVE, 0)) "t" none).sentimentScore ≤ 1
    ∧ (Label.NEGATIVE = .POSITIVE →
        (analyzeDocument (fun _ => .ok (.NEGATIVE, 0)) "t" none).sentimentScore = 0)
    ∧ (Label.NEGATIVE ≠ .POSITIVE →
        (analyzeDocument (fun _ => .ok (.NEGATIVE, 0)) "t" none).sentimentScore = 1 - 0)) :=
  ⟨by decide, by decide,
    sentiment_label_mapping .NEGATIVE 0 "t" none (by decide) (by decide)⟩

theorem mapGet_mem {β : Type} {m : List (String × β)} {k : String} {v : β}
    (h : mapGet m k = some v) : (k, v) ∈ m := by
  induction m with
  | nil => simp [mapGet] at h
  | cons e rest ih =>
    rw [mapGet] at h
    cases hr : mapGet rest k with
    | some w =>
      rw [hr] at h
      injection h with hv
      subst hv
      exact List.mem_cons_of_mem _ (ih hr)
    | none =>
      rw [hr] at h
      by_cases hek : e.1 = k
      · rw [if_pos hek] at h
        injection h with hv
        obtain ⟨k1, v1⟩ := e
        subst hv
        cases hek
        exact List.mem_cons_self _ _
      · rw [if_neg hek] at h
        cases h

theorem compositeKey_of_mapGet_keyToHotel {hotels : List Hotel} {k : String} {h : Hotel}
    (hm : mapGet (keyToHotel hotels) k = some h) : compositeKey h = k := by
  have hmem := mapGet_mem hm
  unfold keyToHotel at hmem
  obtain ⟨g, -, hg⟩ := List.mem_map.mp hmem
  simp only [Prod.mk.injEq] at hg
  rw [← hg.2, hg.1]

theorem map_filterMap_sublist {α β : Type} (f : α → Option β) (g : β → α) (l : List α)
    (hfg : ∀ a b, f a = some b → g b = a) : ((l.filterMap f).map g).Sublist l := by
  induction l with
  | nil => simp
  | cons a l ih =>
    cases hfa : f a with
    | none => simpa [List.filterMap_cons, hfa] using ih.cons a
    | some b =>
      simpa [List.filterMap_cons, hfa, hfg a b hfa] using ih.cons₂ a

theorem setDedupAux_nodup (l : List String) :
    ∀ seen : List String,
      (setDedupAux seen l).Nodup ∧ ∀ a ∈ setDedupAux seen l, a ∉ seen := by
  induction l with
  | nil => intro seen; simp [setDedupAux]
  | cons a l ih =>
    intro seen
    rw [setDedupAux]
    split
    · exact ⟨(ih seen).1, (ih seen).2⟩
    · rename_i ha
      refine ⟨List.nodup_cons.mpr ⟨fun hmem => ?_, ((ih (a :: seen)).1)⟩, ?_⟩
      · exact (ih (a :: seen)).2 a hmem (List.mem_cons_self a seen)
      · intro b hb hbseen
        rcases List.mem_cons.mp hb with rfl | hb'
        · exact ha hbseen
        · exact (ih (a :: seen)).2 b hb' (List.mem_cons_of_mem a hbseen)

theorem setDedup_nodup (l : List String) : (setDedup l).Nodup :=
  (setDedupAux_nodup l []).1

/-- C4: for a non-blank area query whose fuzzy match (over the address/city
pool, max 10 results, minimum similarity 0.6) returns at least one match,
the resolver reaches the terminal `matched` state with a result independent
of the geocoder and the distance function (the Geocoder Adapter is never
consulted); the result has at most 5 hotels, their composite keys are
pairwise distinct (deduplication by owning hotel), and, in order, they are a
subsequence of the first-seen deduplication of the matched keys. -/
theorem fuzzy_branch_spec (fuzzy : String → List String → Nat → ℚ → List String)
    (hotels : List Hotel) (areaQuery selectedCity : String)
    (hq : jsTrim areaQuery ≠ "")
    (hm : fuzzy areaQuery (addressPool hotels) 10 (6/10) ≠ []) :
    ∃ hs : List Hotel,
      (∀ (geocode : String → Except Unit (Option Coord)) (dist : Coord → Coord → ℚ),
        resolveArea fuzzy geocode dist hotels areaQuery selectedCity = .matched hs)
    ∧ hs.length ≤ 5
    ∧ (hs.map compositeKey).Nodup
    ∧ ((hs.map compositeKey).Sublist
        (setDedup ((fuzzy areaQuery (addressPool hotels) 10 (6/10)).filterMap
          (mapGet (addressToHotelKey hotels))))) := by
  have hsub : ((((setDedup ((fuzzy areaQuery (addressPool hotels) 10 (6/10)).filterMap
      (mapGet (addressToHotelKey hotels)))).filterMap
        (mapGet (keyToHotel hotels))).take 5).map compositeKey).Sublist
      (setDedup ((fuzzy areaQuery (addressPool hotels) 10 (6/10)).filterMap
        (mapGet (addressToHotelKey hotels)))) := by
    rw [List.map_take]
    exact (List.take_sublist _ _).trans
      (map_filterMap_sublist _ _ _ (fun a b hab => compositeKey_of_mapGet_keyToHotel hab))
  refine ⟨_, ?_, List.length_take_le _ _, hsub.nodup (setDedup_nodup _), hsub⟩
  intro geocode dist
  unfold resolveArea
  rw [if_neg hq, if_pos hm]

/-- C4 (witness): the fuzzy branch evaluated on the Connaught Place
scenario. -/
theorem fuzzy_branch_spec_witness :
    jsTrim "Connaught Place" ≠ ""
  ∧ poolFuzzy "Connaught Place" (addressPool [connaughtHotel]) 10 (6/10) ≠ []
  ∧ (∃ hs : List Hotel,
      (∀ (geocode : String → Except Unit (Option Coord)) (dist : Coord → Coord → ℚ),
        resolveArea poolFuzzy geocode dist [connaughtHotel] "Connaught Place" "New Delhi"
          = .matched hs)
    ∧ hs.length ≤ 5
    ∧ (hs.map compositeKey).Nodup
    ∧ ((hs.map compositeKey).Sublist
        (setDedup ((poolFuzzy "Connaught Place" (addressPool [connaughtHotel]) 10
            (6/10)).filterMap
          (mapGet (addressToHotelKey [connaughtHotel])))))) :=
  ⟨by decide, by decide,
    fuzzy_branch_spec poolFuzzy [connaughtHotel] "Connaught Place" "New Delhi"
      (by decide) (by decide)⟩

theorem mapGet_eq_none {β : Type} {m : List (String × β)} {k : String}
    (h : ∀ e ∈ m, e.1 ≠ k) : mapGet m k = none := by
  induction m with
  | nil => rfl
  | cons e rest ih =>
    rw [mapGet, ih (fun x hx => h x (List.mem_cons_of_mem _ hx))]
    rw [if_neg (h e (List.mem_cons_self _ _))]

theorem mapGet_of_nodup {β : Type} {m : List (String × β)} {k : String} {v : β}
    (hn : (m.map Prod.fst).Nodup) (hkv : (k, v) ∈ m) : mapGet m k = some v := by
  induction m with
  | nil => cases hkv
  | cons e rest ih =>
    rw [mapGet]
    rcases List.mem_cons.mp hkv with heq | hmem
    · cases heq
      have hk : k ∉ rest.map Prod.fst := by
        simpa using (List.nodup_cons.mp hn).1
      rw [mapGet_eq_none (fun x hx hxk => hk (by
        rw [← hxk]
        exact List.mem_map_of_mem Prod.fst hx))]
      simp
    · rw [ih (List.nodup_cons.mp hn).2 hmem]

/-- C5: for a non-blank query with no fuzzy match whose geocoding resolves a
center, the resolver reaches `distanceRanked` with that center: the output
hotels are drawn from the candidate set, sorted ascending by distance from
the center, truncated to the nearest 5, and the retained distance map
contains the distance of every candidate hotel under its composite key. -/
theorem distance_branch_spec
    (fuzzy : String → List String → Nat → ℚ → List String)
    (geocode : String → Except Unit (Option Coord)) (dist : Coord → Coord → ℚ)
    (hotels : List Hotel) (areaQuery selectedCity : String) (center : Coord)
    (hq : jsTrim areaQuery ≠ "")
    (hm : fuzzy areaQuery (addressPool hotels) 10 (6/10) = [])
    (hg : geocode (lookupText areaQuery selectedCity) = .ok (some center))
    (hkeys : (hotels.map distKey).Nodup) :
    ∃ (hs : List Hotel) (ds : List (String × ℚ)),
      resolveArea fuzzy geocode dist hotels areaQuery selectedCity
        = .distanceRanked center ds hs
    ∧ hs.length ≤ 5
    ∧ (hs.map (fun h => dist center h.coordinates)).Pairwise (· ≤ ·)
    ∧ (∀ h ∈ hotels, mapGet ds (distKey h) = some (dist center h.coordinates))
    ∧ (∀ h ∈ hs, h ∈ hotels) := by
  refine ⟨(((hotels.map (fun h => (h, dist center h.coordinates))).mergeSort
      (fun a b => decide (a.2 ≤ b.2))).take 5).map (fun x => x.1),
    hotels.map (fun h => (distKey h, dist center h.coordinates)),
    ?_, ?_, ?_, ?_, ?_⟩
  · unfold resolveArea
    rw [if_neg hq]
    simp only [hm, ne_eq, not_true_eq_false, if_false, hg]
  · rw [List.length_map]
    exact List.length_take_le _ _
  · have htrans : ∀ a b c : Hotel × ℚ,
        decide (a.2 ≤ b.2) → decide (b.2 ≤ c.2) → decide (a.2 ≤ c.2) := by
      intro a b c
      simp only [decide_eq_true_eq]
      exact le_trans
    have htotal : ∀ a b : Hotel × ℚ, decide (a.2 ≤ b.2) || decide (b.2 ≤ a.2) := by
      intro a b
      simp only [Bool.or_eq_true, decide_eq_true_eq]
      exact le_total _ _
    have hsorted := @List.sorted_mergeSort (Hotel × ℚ) (fun a b => decide (a.2 ≤ b.2))
      htrans htotal (hotels.map (fun h => (h, dist center h.coordinates)))
    have htake := hsorted.sublist (List.take_sublist 5 _)
    have hmemP : ∀ p ∈ ((hotels.map (fun h => (h, dist center h.coordinates))).mergeSort
        (fun a b => decide (a.2 ≤ b.2))).take 5, p.2 = dist center p.1.coordinates := by
      intro p hp
      have hpP : p ∈ hotels.map (fun h => (h, dist center h.coordinates)) :=
        List.mem_mergeSort.mp ((List.take_sublist _ _).mem hp)
      obtain ⟨g, -, rfl⟩ := List.mem_map.mp hpP
      rfl
    rw [List.map_map, List.pairwise_map]
    refine htake.imp_of_mem ?_
    intro a b ha hb hab
    simp only [decide_eq_true_eq] at hab
    simpa [Function.comp, hmemP a ha, hmemP b hb] using hab
  · intro h hmem
    apply mapGet_of_nodup
    · simpa [List.map_map, Function.comp] using hkeys
    · exact List.mem_map_of_mem _ hmem
  · intro h hh
    obtain ⟨p, hp, rfl⟩ := List.mem_map.mp hh
    have hpP : p ∈ hotels.map (fun h => (h, dist center h.coordinates)) :=
      List.mem_mergeSort.mp ((List.take_sublist _ _).mem hp)
    obtain ⟨g, hg', rfl⟩ := List.mem_map.mp hpP
    exact hg'

/-- C5 (witness): the distance branch evaluated on a one-hotel candidate set
with a geocoder that resolves the scenario center. -/
theorem distance_branch_spec_witness :
    jsTrim "Hauz Khas" ≠ ""
  ∧ emptyFuzzy "Hauz Khas" (addressPool [connaughtHotel]) 10 (6/10) = []
  ∧ (fun _ : String => (.ok (some centerDelhi) : Except Unit (Option Coord)))
      (lookupText "Hauz Khas" "New Delhi") = .ok (some centerDelhi)
  ∧ (([connaughtHotel].map distKey).Nodup)
  ∧ (∃ (hs : List Hotel) (ds : List (String × ℚ)),
      resolveArea emptyFuzzy (fun _ => .ok (some centerDelhi)) sqDist [connaughtHotel]
          "Hauz Khas" "New Delhi"
        = .distanceRanked centerDelhi ds hs
    ∧ hs.length ≤ 5
    ∧ (hs.map (fun h => sqDist centerDelhi h.coordinates)).Pairwise (· ≤ ·)
    ∧ (∀ h ∈ [connaughtHotel], mapGet ds (distKey h) = some (sqDist centerDelhi h.coordinates))
    ∧ (∀ h ∈ hs, h ∈ [connaughtHotel])) :=
  ⟨by decide, rfl, rfl, by decide,
    distance_branch_spec emptyFuzzy (fun _ => .ok (some centerDelhi)) sqDist
      [connaughtHotel] "Hauz Khas" "New Delhi" centerDelhi (by decide) rfl rfl (by decide)⟩

/-- C6: for a non-blank query with no fuzzy match, the resolver consults the
geocoder exactly on the composed lookup text — `"<query>, <city>"` for a
truthy selected city other than the `'all'` sentinel, else the raw query —
and when no center is resolved it returns exactly the first 5 candidate
hotels unchanged in order, in the non-fatal `noMatchFallback` state carrying
the "no exact match" advisory rather than the error state. -/
theorem geocode_fallback_spec
    (fuzzy : String → List String → Nat → ℚ → List String)
    (hotels : List Hotel) (areaQuery selectedCity : String)
    (hq : jsTrim areaQuery ≠ "")
    (hm : fuzzy areaQuery (addressPool hotels) 10 (6/10) = []) :
    (selectedCity ≠ "" ∧ selectedCity ≠ "all" →
      lookupText areaQuery selectedCity = areaQuery ++ ", " ++ selectedCity)
  ∧ (¬(selectedCity ≠ "" ∧ selectedCity ≠ "all") →
      lookupText areaQuery selectedCity = areaQuery)
  ∧ (∀ (geocode geocode' : String → Except Unit (Option Coord))
       (dist : Coord → Coord → ℚ),
      geocode (lookupText areaQuery selectedCity)
          = geocode' (lookupText areaQuery selectedCity) →
      resolveArea fuzzy geocode dist hotels areaQuery selectedCity
        = resolveArea fuzzy geocode' dist hotels areaQuery selectedCity)
  ∧ (∀ (geocode : String → Except Unit (Option Coord)) (dist : Coord → Coord → ℚ),
      geocode (lookupText areaQuery selectedCity) = .ok none →
      resolveArea fuzzy geocode dist hotels areaQuery selectedCity
        = .noMatchFallback (hotels.take 5)
            "No exact match found; showing top results.") := by
  refine ⟨fun hc => ?_, fun hc => ?_, fun geocode geocode' dist heq => ?_, fun geocode dist hnone => ?_⟩
  · rw [lookupText, if_pos hc]
  · rw [lookupText, if_neg hc]
  · unfold resolveArea
    simp only [if_neg hq, hm, ne_eq, not_true_eq_false, if_false, heq]
  · unfold resolveArea
    simp only [if_neg hq, hm, ne_eq, not_true_eq_false, if_false, hnone]

/-- C6 (witness): the fallback contract evaluated on a geocoder that
resolves nothing, with a specific selected city. -/
theorem geocode_fallback_spec_witness :
    jsTrim "asdkjasd" ≠ ""
  ∧ emptyFuzzy "asdkjasd" (addressPool [connaughtHotel]) 10 (6/10) = []
  ∧ (("New Delhi" ≠ "" ∧ "New Delhi" ≠ "all" →
      lookupText "asdkjasd" "New Delhi" = "asdkjasd" ++ ", " ++ "New Delhi")
  ∧ (¬("New Delhi" ≠ "" ∧ "New Delhi" ≠ "all") →
      lookupText "asdkjasd" "New Delhi" = "asdkjasd")
  ∧ (∀ (geocode geocode' : String → Except Unit (Option Coord))
       (dist : Coord → Coord → ℚ),
      geocode (lookupText "asdkjasd" "New Delhi")
          = geocode' (lookupText "asdkjasd" "New Delhi") →
      resolveArea emptyFuzzy geocode dist [connaughtHotel] "asdkjasd" "New Delhi"
        = resolveArea emptyFuzzy geocode' dist [connaughtHotel] "asdkjasd" "New Delhi")
  ∧ (∀ (geocode : String → Except Unit (Option Coord)) (dist : Coord → Coord → ℚ),
      geocode (lookupText "asdkjasd" "New Delhi") = .ok none →
      resolveArea emptyFuzzy geocode dist [connaughtHotel] "asdkjasd" "New Delhi"
        = .noMatchFallback ([connaughtHotel].take 5)
            "No exact match found; showing top results.")) :=
  ⟨by decide, rfl,
    geocode_fallback_spec emptyFuzzy [connaughtHotel] "asdkjasd" "New Delhi"
      (by decide) rfl⟩

/-- C8: once superseded (the cancellation flag captured at request start is
set), a resolution commits nothing: for every non-blank query and every
outcome the resolver can produce, the guarded commit leaves the resolution
state exactly as it was, so stale results are discarded silently. -/
theorem stale_commit_discarded
    (fuzzy : String → List String → Nat → ℚ → List String)
    (geocode : String → Except Unit (Option Coord)) (dist : Coord → Coord → ℚ)
    (hotels : List Hotel) (areaQuery selectedCity : String)
    (st : ResolutionState) (hq : jsTrim areaQuery ≠ "") :
    commitOutcome true st
      (resolveArea fuzzy geocode dist hotels areaQuery selectedCity) = st := by
  unfold resolveArea
  rw [if_neg hq]
  by_cases hf : fuzzy areaQuery (addressPool hotels) 10 (6/10) = []
  · rw [if_neg (not_not_intro hf)]
    cases hg : geocode (lookupText areaQuery selectedCity) with
    | error e => simp only [hg]; rfl
    | ok c => cases c <;> simp only [hg] <;> rfl
  · rw [if_pos hf]
    rfl

/-- C8 (witness): a concrete superseded resolution leaves a concrete state
unchanged. -/
theorem stale_commit_discarded_witness :
    jsTrim "Connaught Place" ≠ ""
  ∧ commitOutcome true
      ⟨false, none, none, [], none⟩
      (resolveArea poolFuzzy (fun _ => .ok none) sqDist [connaughtHotel]
        "Connaught Place" "New Delhi")
      = ⟨false, none, none, [], none⟩ :=
  ⟨by decide,
    stale_commit_discarded poolFuzzy (fun _ => .ok none) sqDist [connaughtHotel]
      "Connaught Place" "New Delhi" ⟨false, none, none, [], none⟩ (by decide)⟩

theorem mem_recSet {β : Type} {m : List (String × β)} {k : String} {v : β}
    {e : String × β} (he : e ∈ recSet m k v) : e ∈ m ∨ e = (k, v) := by
  unfold recSet at he
  split at he
  · obtain ⟨x, hx, hxe⟩ := List.mem_map.mp he
    split at hxe
    · right
      exact hxe.symm
    · left
      rw [← hxe]
      exact hx
  · rcases List.mem_append.mp he with h | h
    · left
      exact h
    · right
      simpa using h

theorem foldl_inv {α β : Type} {P : β → Prop} (f : β → α → β) :
    ∀ (l : List α) (b : β), P b → (∀ b a, P b → a ∈ l → P (f b a)) → P (l.foldl f b)
  | [], _, hb, _ => hb
  | a :: l, b, hb, hf =>
    foldl_inv f l (f b a) (hf b a hb (List.mem_cons_self _ _))
      (fun b' a' hb' ha' => hf b' a' hb' (List.mem_cons_of_mem _ ha'))

theorem processReviews_justified (reviews : List (String × RawVal)) :
    ∀ e ∈ processReviews reviews, valJustified reviews e.1 e.2 := by
  unfold processReviews
  refine @foldl_inv _ _
    (fun acc : List (String × CombinedVal) => ∀ e ∈ acc, valJustified reviews e.1 e.2)
    _ reviews [] ?_ ?_
  · intro e he
    cases he
  · intro acc a hacc ha e he
    obtain ⟨ap, ad⟩ := a
    cases ad with
    | obj r c =>
      rcases mem_recSet he with h | rfl
      · exact hacc e h
      · exact Or.inl ⟨ap, .obj r c, ha, rfl, Or.inl ⟨r, c, rfl, rfl, rfl⟩⟩
    | num q =>
      dsimp only at he
      split at he
      · rcases mem_recSet he with h | rfl
        · exact hacc e h
        · rename_i hq
          exact Or.inl ⟨ap, .num q, ha, rfl, Or.inr ⟨q, rfl, hq, rfl, rfl⟩⟩
      · exact hacc e he
    | other => exact hacc e he

theorem addBookingLinks_justified (reviews : List (String × RawVal))
    (acc : List (String × CombinedVal)) (links : List (String × Option String))
    (hacc : ∀ e ∈ acc, valJustified reviews e.1 e.2) :
    ∀ e ∈ addBookingLinks acc links, valJustified reviews e.1 e.2 := by
  unfold addBookingLinks
  refine @foldl_inv _ _
    (fun acc : List (String × CombinedVal) => ∀ e ∈ acc, valJustified reviews e.1 e.2)
    _ links acc hacc ?_
  intro b a hb ha e he
  obtain ⟨lp, lu⟩ := a
  cases lu with
  | none => exact hb e he
  | some url =>
    dsimp only at he
    split at he
    · rename_i hurl
      cases hlk : mapGet b lp.toLower with
      | some cv =>
        rw [hlk] at he
        rcases mem_recSet he with h | rfl
        · exact hb e h
        · have hcv := hb (lp.toLower, cv) (mapGet_mem hlk)
          rcases hcv with ⟨pk, d, hmem, hlow, hjust⟩ | ⟨h1, h2⟩
          · exact Or.inl ⟨pk, d, hmem, hlow, hjust⟩
          · exact Or.inr ⟨h1, h2⟩
      | none =>
        rw [hlk] at he
        rcases mem_recSet he with h | rfl
        · exact hb e h
        · exact Or.inr ⟨rfl, rfl⟩
    · exact hb e he

theorem processPlatforms_justified (reviews : List (String × RawVal))
    (links : List (String × Option String)) :
    ∀ e ∈ processPlatforms reviews links, entryJustified reviews e := by
  intro e he
  unfold processPlatforms at he
  have h1 : e ∈ (addBookingLinks (processReviews reviews) links).map
      (fun e => PlatformEntry.mk e.1 e.2.rating e.2.reviews_count e.2.url) :=
    List.mem_of_mem_filter (List.mem_mergeSort.mp he)
  obtain ⟨⟨p, v⟩, hp, rfl⟩ := List.mem_map.mp h1
  exact addBookingLinks_justified reviews _ links
    (processReviews_justified reviews) _ hp

/-- C9: (a) every hotel in the pipeline output carries only fully
normalized `platform_ratings` entries — each value is an object with a
numeric `rating` and a numeric `reviews_count` produced by the
`Number(...) || 0` coercion, never raw input; (b) every platform row
displayed by BookingPlatforms is justified: its numbers come from the
coercion of a raw reviews entry (object or legacy truthy number) or are the
zero default. -/
theorem platform_ratings_normalized :
    (∀ (hotels : List Hotel) (selectedCity : String) (sortBy : SortKey)
       (selectedPriceRange : Option PriceRange),
      ∀ h ∈ filteredHotels hotels selectedCity sortBy selectedPriceRange,
        ∀ e ∈ h.platform_ratings, ∃ r c : ℚ,
          e.2 = .obj (some (.valid r)) (some (.valid c)))
  ∧ (∀ (reviews : List (String × RawVal)) (links : List (String × Option String)),
      ∀ e ∈ processPlatforms reviews links, entryJustified reviews e) := by
  constructor
  · intro hotels selectedCity sortBy selectedPriceRange h hm e he
    unfold filteredHotels at hm
    obtain ⟨g, -, rfl⟩ := List.mem_map.mp hm
    dsimp only at he
    unfold formatPlatformRatings at he
    obtain ⟨⟨p, d⟩, -, hed⟩ := List.mem_filterMap.mp he
    cases d with
    | obj r c =>
      injection hed with hed'
      exact ⟨numOrZero r, numOrZero c, by rw [← hed']⟩
    | num q => cases hed
    | other => cases hed
  · exact processPlatforms_justified

/-- C9 (witness): the normalization invariant evaluated on a concrete
catalog and a concrete raw reviews record. -/
theorem platform_ratings_normalized_witness :
    (∀ h ∈ filteredHotels [connaughtHotel] "all" .ai_score none,
      ∀ e ∈ h.platform_ratings, ∃ r c : ℚ,
        e.2 = RawVal.obj (some (.valid r)) (some (.valid c)))
  ∧ (∀ e ∈ processPlatforms
        [("Google", .obj (some (.valid 4)) (some .nan)), ("Booking.com", .num 8)]
        [("TripAdvisor", some "https://example.com")],
      entryJustified
        [("Google", .obj (some (.valid 4)) (some .nan)), ("Booking.com", .num 8)] e) :=
  ⟨platform_ratings_normalized.1 [connaughtHotel] "all" .ai_score none,
    platform_ratings_normalized.2
      [("Google", .obj (some (.valid 4)) (some .nan)), ("Booking.com", .num 8)]
      [("TripAdvisor", some "https://example.com")]⟩

end HotelRec
